import Mathlib

/-!
# Queue-driven batch orchestration subsystem: shallow embedding

This development embeds the queue/state subsystem of the `3k-ani-mkv-av1`
repository and proves the spec's claims about it:

* `SimpleMonitor` models `tools/simple_monitor.py` (`SimpleVideoMonitor`):
  a processed-set plus FIFO queue of single video files.
* `MSMonitor` models `tools/modelscope_monitor.py` (`ModelScopeMonitor`):
  folder-granularity queue with priority sort and the stability gate.
* `QueueProc` models `tools/queue_processor.py` (`QueueProcessor`).
* `Worker` models `tools/simple_processor.py` (`SimpleVideoWorker`).
* `Persist` models the JSON save/load round-trip of the state files.

Python sets are modelled as duplicate-free lists (`List.insert`), Python's
stable `list.sort(key=...)` as `List.insertionSort` on the comparison of the
keys (both are stable sorts, hence extensionally equal), timestamps
(`time.time()` floats) as integers, and file contents as an explicit
`FileRead` datatype distinguishing a missing file, unreadable JSON, and a
successfully parsed document.
-/

namespace SimpleMonitor

/-- One catalog entry as produced by `get_all_videos_from_repo`:
a dict with `path`, `size`, `mtime`. -/
structure VideoInfo where
  path : String
  size : Nat
  mtime : Int
deriving DecidableEq, Repr

/-- One live-queue entry as built by `add_video_to_queue`:
`{"path": .., "size": .., "mtime": .., "added_time": .., "status": ..,
"priority": ..}`. -/
structure VideoItem where
  path : String
  size : Nat
  mtime : Int
  added_time : Int
  status : String
  priority : Nat
deriving DecidableEq, Repr

/-- The monitor's mutable state: `self.processed_videos` (a Python set,
modelled as a duplicate-free list) and `self.video_queue`. -/
structure State where
  processed_videos : List String
  video_queue : List VideoItem
deriving DecidableEq, Repr

/-- The identities currently in the live queue. -/
def State.queuePaths (s : State) : List String :=
  s.video_queue.map (·.path)

/-- `SimpleVideoMonitor.add_video_to_queue`: no-op when the path is already
processed or already queued, otherwise append a `pending` item of
priority 1 (`now` models the `time.time()` call for `added_time`). -/
def add_video_to_queue (s : State) (v : VideoInfo) (now : Int) : State :=
  if v.path ∈ s.processed_videos then s
  else if s.video_queue.any (fun item => item.path == v.path) then s
  else { s with video_queue :=
          s.video_queue ++ [⟨v.path, v.size, v.mtime, now, "pending", 1⟩] }

/-- `SimpleVideoMonitor.mark_video_processed`: add the path to the processed
set and remove every queue entry carrying that path. -/
def mark_video_processed (s : State) (video_path : String) : State :=
  { processed_videos := s.processed_videos.insert video_path,
    video_queue := s.video_queue.filter (fun item => item.path != video_path) }

/-- `SimpleVideoMonitor.mark_video_failed`: identical state change to
`mark_video_processed` (failures are also recorded as processed). -/
def mark_video_failed (s : State) (video_path : String) : State :=
  { processed_videos := s.processed_videos.insert video_path,
    video_queue := s.video_queue.filter (fun item => item.path != video_path) }

/-- `SimpleVideoMonitor.get_next_video`: pop the first queue entry,
returning it together with the updated state (`None` when empty). -/
def get_next_video (s : State) : Option VideoItem × State :=
  match s.video_queue with
  | [] => (none, s)
  | v :: rest => (some v, { s with video_queue := rest })

/-- The at-most-one-location invariant: no queued identity is in the
processed set, and no identity appears twice in the live queue. -/
def Inv (s : State) : Prop :=
  (∀ p ∈ s.queuePaths, p ∉ s.processed_videos) ∧ s.queuePaths.Nodup

instance (s : State) : Decidable (Inv s) := by
  unfold Inv
  infer_instance

end SimpleMonitor

namespace MSMonitor

/-- The per-folder aggregate computed by `get_repository_structure`
(`file_count`, `total_size`, `last_modified`); the file list itself is
summarized by the content hash, which `folder_check_step` takes as input. -/
structure FolderInfo where
  file_count : Nat
  total_size : Nat
  last_modified : Int
deriving DecidableEq, Repr

/-- One entry of `self.processing_queue` as built by `add_to_queue`
(`start_time`/`end_time` are added later by the status-marking calls). -/
structure FolderItem where
  folder : String
  file_count : Nat
  total_size : Nat
  added_time : String
  status : String
  priority : Nat
  start_time : Option String
  end_time : Option String
deriving DecidableEq, Repr

/-- `ModelScopeMonitor.calculate_priority`: small folders first.  The source
compares `total_size/(1024**3) <= 5` (resp. `<= 20`) over floats; for
integer byte counts this is exactly `total_size ≤ 5·1024³`
(resp. `20·1024³`). -/
def calculate_priority (info : FolderInfo) : Nat :=
  if info.file_count ≤ 10 ∧ info.total_size ≤ 5 * 1024 ^ 3 then 1
  else if info.file_count ≤ 50 ∧ info.total_size ≤ 20 * 1024 ^ 3 then 2
  else 3

/-- The comparison used by `self.processing_queue.sort(key=lambda x:
x["priority"])`. -/
def le_pri (a b : FolderItem) : Prop := a.priority ≤ b.priority

instance : DecidableRel le_pri := fun a b =>
  inferInstanceAs (Decidable (a.priority ≤ b.priority))

instance : IsTotal FolderItem le_pri := ⟨fun a b => Nat.le_total a.priority b.priority⟩

instance : IsTrans FolderItem le_pri := ⟨fun _ _ _ => Nat.le_trans⟩

/-- The `queue_item` dict built by `add_to_queue`
(`now` models the `datetime.now().isoformat()` timestamp). -/
def to_queue_item (folder_name : String) (info : FolderInfo) (now : String) :
    FolderItem :=
  { folder := folder_name, file_count := info.file_count,
    total_size := info.total_size, added_time := now, status := "pending",
    priority := calculate_priority info, start_time := none, end_time := none }

/-- `ModelScopeMonitor.add_to_queue`: append a fresh `pending` item and
stable-sort the queue by priority.  Python's `list.sort` is a stable sort,
so it agrees with `List.insertionSort` on the same comparison. -/
def add_to_queue (q : List FolderItem) (folder_name : String) (info : FolderInfo)
    (now : String) : List FolderItem :=
  (q ++ [to_queue_item folder_name info now]).insertionSort le_pri

/-- A sequence of `add_to_queue` calls (each element carries folder name,
aggregate info and enqueue timestamp). -/
def enqueue_all (q₀ : List FolderItem)
    (items : List (String × FolderInfo × String)) : List FolderItem :=
  items.foldl (fun q it => add_to_queue q it.1 it.2.1 it.2.2) q₀

/-- The per-folder record stored in `self.last_state["folders"]`. -/
structure FolderRec where
  hash : String
  last_check_time : Int
  file_count : Nat
  total_size : Nat
  last_modified : Int
deriving DecidableEq, Repr

/-- `self.last_state`: the persisted `{"folders": {...}, "last_check": ...}`
mapping (a Python dict, modelled as an insertion-ordered association
list). -/
structure LastState where
  folders : List (String × FolderRec)
  last_check : Option String
deriving DecidableEq, Repr

/-- The monitor's mutable state: `self.last_state` and
`self.processing_queue`. -/
structure MState where
  last_state : LastState
  processing_queue : List FolderItem
deriving DecidableEq, Repr

/-- Python dict assignment `d[k] = v`: replace in place if present,
append otherwise. -/
def update_folder : List (String × FolderRec) → String → FolderRec →
    List (String × FolderRec)
  | [], k, v => [(k, v)]
  | (k', v') :: rest, k, v =>
      if k' == k then (k, v) :: rest else (k', v') :: update_folder rest k v

/-- `self.min_folder_stable_time = 600` (seconds). -/
def min_folder_stable_time : Int := 600

/-- One observation of a folder at one monitoring check: the check time
(`time.time()`), the folder's content hash (`calculate_folder_hash`, an md5
hex digest — never the empty string), and the aggregate counters. -/
structure FolderCheck where
  time : Int
  hash : String
  file_count : Nat
  total_size : Nat
  last_modified : Int
deriving DecidableEq, Repr

/-- The loop body of `detect_completed_folders` for one folder in normal
(non-`force_all`) mode, composed with the `add_to_queue` call that
`monitor_once` performs on each detected folder.  Returns the new state and
whether the folder was enqueued at this check. -/
def folder_check_step (st : MState) (f : String) (c : FolderCheck) :
    MState × Bool :=
  if st.processing_queue.any (fun item => item.folder == f) then (st, false)
  else
    let last_hash := ((st.last_state.folders.lookup f).map FolderRec.hash).getD ""
    let last_check_time :=
      ((st.last_state.folders.lookup f).map FolderRec.last_check_time).getD 0
    if c.hash ≠ last_hash then
      let newRec : FolderRec :=
        ⟨c.hash, c.time, c.file_count, c.total_size, c.last_modified⟩
      ({ st with last_state :=
          { st.last_state with
            folders := update_folder st.last_state.folders f newRec } },
       false)
    else if min_folder_stable_time ≤ c.time - last_check_time then
      if 0 < c.file_count then
        let info : FolderInfo := ⟨c.file_count, c.total_size, c.last_modified⟩
        let q' := add_to_queue st.processing_queue f info (toString c.time)
        ({ st with processing_queue := q' }, true)
      else (st, false)
    else (st, false)

/-- Run a sequence of monitoring checks for one folder, counting how many
times it is enqueued. -/
def run_checks (st : MState) (f : String) : List FolderCheck → MState × Nat
  | [] => (st, 0)
  | c :: cs =>
      let r := folder_check_step st f c
      let rest := run_checks r.1 f cs
      (rest.1, (if r.2 then 1 else 0) + rest.2)

/-- The folder's content hash differs from the last recorded hash at every
check (the recorded hash starts at `h` and is updated to the observed hash
at each check). -/
def always_changing (h : String) : List FolderCheck → Bool
  | [] => true
  | c :: cs => (c.hash != h) && always_changing c.hash cs

/-- The hash currently recorded for folder `f` (`""` when the folder has no
record yet, mirroring `last_folder_info.get("hash", "")`). -/
def recorded_hash (st : MState) (f : String) : String :=
  ((st.last_state.folders.lookup f).map FolderRec.hash).getD ""

end MSMonitor

namespace Persist

/-- JSON documents as written/read by `json.dump`/`json.load` for the state
files (only the constructors these files use). -/
inductive Json where
  | null : Json
  | str : String → Json
  | int : Int → Json
  | arr : List Json → Json
  | obj : List (String × Json) → Json

/-- Read a JSON string. -/
def as_str : Json → Option String
  | .str s => some s
  | _ => none

/-- Read a JSON number (integral). -/
def as_int : Json → Option Int
  | .int n => some n
  | _ => none

/-- Read every element of a JSON array with `f`, failing if any element
fails (the effect of iterating over a parsed JSON list). -/
def decode_list {α : Type} (f : Json → Option α) : List Json → Option (List α)
  | [] => some []
  | j :: js => do
      let a ← f j
      let rest ← decode_list f js
      pure (a :: rest)

/-- The JSON document `SimpleVideoMonitor.save_queue` writes:
the literal list of queue-entry dicts. -/
def encode_video_item (i : SimpleMonitor.VideoItem) : Json :=
  .obj [("path", .str i.path), ("size", .int i.size), ("mtime", .int i.mtime),
        ("added_time", .int i.added_time), ("status", .str i.status),
        ("priority", .int i.priority)]

/-- Reading one queue-entry dict back (the fields the monitor accesses). -/
def decode_video_item (j : Json) : Option SimpleMonitor.VideoItem :=
  match j with
  | .obj fields => do
      let path ← (fields.lookup "path").bind as_str
      let size ← (fields.lookup "size").bind as_int
      let mtime ← (fields.lookup "mtime").bind as_int
      let added ← (fields.lookup "added_time").bind as_int
      let status ← (fields.lookup "status").bind as_str
      let pri ← (fields.lookup "priority").bind as_int
      pure ⟨path, size.toNat, mtime, added, status, pri.toNat⟩
  | _ => none

/-- `SimpleVideoMonitor.save_queue`: `json.dump(self.video_queue, f)`. -/
def save_queue (s : SimpleMonitor.State) : Json :=
  .arr (s.video_queue.map encode_video_item)

/-- `SimpleVideoMonitor.load_queue` applied to a parsed document:
`self.video_queue = json.load(f)`. -/
def load_queue_doc (j : Json) : Option (List SimpleMonitor.VideoItem) :=
  match j with
  | .arr js => decode_list decode_video_item js
  | _ => none

/-- `SimpleVideoMonitor.save_state`:
`{"processed_videos": list(self.processed_videos), "last_update": ...}`. -/
def save_state (s : SimpleMonitor.State) (last_update : String) : Json :=
  .obj [("processed_videos", .arr (s.processed_videos.map .str)),
        ("last_update", .str last_update)]

/-- `SimpleVideoMonitor.load_state` applied to a parsed document:
`set(state.get("processed_videos", []))`. -/
def load_state_doc (j : Json) : Option (List String) :=
  match j with
  | .obj fields =>
      match fields.lookup "processed_videos" with
      | some (.arr js) => decode_list as_str js
      | some _ => none
      | none => some []
  | _ => none

/-- What reading a persisted file can yield: the file is absent, `open`/
`json.load` raises (unreadable or corrupt JSON), or parsing succeeds with a
payload. -/
inductive FileRead (α : Type) where
  | missing : FileRead α
  | unreadable : FileRead α
  | parsed : α → FileRead α

end Persist

namespace MSMonitor

/-- `ModelScopeMonitor.load_state`: missing file falls through to the
default, a raising `json.load` is caught and logged, both yielding
`{"folders": {}, "last_check": None}`. -/
def load_state : Persist.FileRead LastState → LastState
  | .missing => ⟨[], none⟩
  | .unreadable => ⟨[], none⟩
  | .parsed st => st

end MSMonitor

namespace Utils

/-- `src/utils.load_progress`: missing file returns `{}`, any exception
while reading/parsing returns `{}`. -/
def load_progress : Persist.FileRead (List (String × Persist.Json)) →
    List (String × Persist.Json)
  | .missing => []
  | .unreadable => []
  | .parsed d => d

end Utils

namespace QueueProc

open MSMonitor

/-- `QueueProcessor.load_queue`: a missing queue file or a raising
`json.load` both fall through to `return []`. -/
def load_queue : Persist.FileRead (List FolderItem) → List FolderItem
  | .missing => []
  | .unreadable => []
  | .parsed q => q

/-- `QueueProcessor.get_pending_items`: the queue entries whose status is
`"pending"`, in queue order. -/
def get_pending_items (q : List FolderItem) : List FolderItem :=
  q.filter (fun item => item.status == "pending")

/-- `QueueProcessor.mark_item_status`: update the first entry with the
given folder name (`break` after the first match); `start_time` is stamped
on `"processing"`, `end_time` on `"completed"`/`"failed"`. -/
def mark_item_status : List FolderItem → String → String → String →
    List FolderItem
  | [], _, _, _ => []
  | item :: rest, f, st, now =>
      if item.folder == f then
        { item with
          status := st,
          start_time := if st == "processing" then some now else item.start_time,
          end_time :=
            if st == "completed" || st == "failed" then some now
            else item.end_time } :: rest
      else item :: mark_item_status rest f st now

/-- One dequeue as performed by `QueueProcessor.run_processor`: take
`get_pending_items()[0]` and claim it by marking it `"processing"`. -/
def dequeue_once (q : List FolderItem) (now : String) :
    Option String × List FolderItem :=
  match get_pending_items q with
  | [] => (none, q)
  | item :: _ => (some item.folder, mark_item_status q item.folder "processing" now)

/-- Strip leading and trailing `/` as in Python's `strip('/')`. -/
def py_strip_slashes (s : String) : String :=
  let cs := s.toList.dropWhile (· == '/')
  String.mk ((cs.reverse.dropWhile (· == '/')).reverse)

/-- Python's `split('/')` with an explicit separator. -/
def py_split_slashes (s : String) : List String :=
  s.splitOn "/"

/-- `series_dict.setdefault`-style append used by
`organize_videos_by_series` (Python dicts preserve insertion order). -/
def dict_append (d : List (String × List String)) (k : String) (v : String) :
    List (String × List String) :=
  let d' := if d.any (fun kv => kv.1 == k) then d else d ++ [(k, [])]
  d'.map (fun kv => if kv.1 == k then (kv.1, kv.2 ++ [v]) else kv)

/-- The comparison used by
`sorted(series_dict.items(), key=lambda x: len(x[1]))`. -/
def le_series (a b : String × List String) : Prop := a.2.length ≤ b.2.length

instance : DecidableRel le_series := fun a b =>
  inferInstanceAs (Decidable (a.2.length ≤ b.2.length))

/-- `AnimationProcessor.organize_videos_by_series`.  Note the source's
indentation: for a path with at least two components the series name is
computed but the entry is *not* added to the dict — only paths with fewer
than two components are collected, under the series name `"未分类"`. -/
def organize_videos_by_series (video_files : List String) :
    List (String × List String) :=
  let d := video_files.foldl
    (fun (d : List (String × List String)) video_path =>
      let path_parts := py_split_slashes (py_strip_slashes video_path)
      if 2 ≤ path_parts.length then d
      else dict_append d "未分类" video_path)
    []
  d.insertionSort le_series

/-- `config.MAX_EPISODES_PER_BATCH`. -/
def max_episodes_per_batch : Nat := 30

/-- The slices `videos[i:i+n]` for `i in range(0, len(videos), n)`
(only used with `n = 30`; Python raises on step 0, modelled as no
batches). -/
def chunks (n : Nat) (l : List α) : List (List α) :=
  if h : l.length = 0 ∨ n = 0 then []
  else l.take n :: chunks n (l.drop n)
termination_by l.length
decreasing_by
  push_neg at h
  simp only [List.length_drop]
  omega

/-- Zero-padded batch part number, as in `f"part{k:02d}"`. -/
def pad2 (n : Nat) : String :=
  if n < 10 then "0" ++ toString n else toString n

/-- The batches `process_folder` runs: for each series (smallest first),
chunks of `MAX_EPISODES_PER_BATCH` videos, named
`f"{folder_name}_{series_name}_part{(i//batch_size)+1:02d}"`. -/
def folder_batches (folder_name : String) (video_files : List String) :
    List (String × List String) :=
  (organize_videos_by_series video_files).flatMap (fun sv =>
    ((chunks max_episodes_per_batch sv.2).enum).map (fun ib =>
      (folder_name ++ "_" ++ sv.1 ++ "_part" ++ pad2 (ib.1 + 1), ib.2)))

/-- The collaborators `process_folder` calls, as observed for one folder:
the disk-space check, the folder's video listing, the per-batch outcome of
`process_videos_in_batch`, and whether anything inside the `try` block
raised. -/
structure FolderEnv where
  space_ok : Bool
  folder_videos : List String
  batch_ok : String → List String → Bool
  raises : Bool

/-- `QueueProcessor.process_folder`: returns the boolean result together
with the final status written by `mark_item_status` (after the initial
`"processing"` mark).  `success_rate >= 80` with
`success_rate = total_success/total_batches*100` (and `0` when there are no
batches) is exactly `0 < total_batches ∧ 4*total_batches ≤ 5*total_success`
over the rationals. -/
def process_folder (env : FolderEnv) (folder_name : String) : Bool × String :=
  if env.raises = true then (false, "failed")
  else if env.space_ok = false then (false, "failed")
  else if env.folder_videos = [] then (false, "failed")
  else
    let batches := folder_batches folder_name env.folder_videos
    let total_batches := batches.length
    let total_success :=
      (batches.filter (fun b => env.batch_ok b.1 b.2)).length
    if 0 < total_batches ∧ 4 * total_batches ≤ 5 * total_success then
      (true, "completed")
    else (false, "failed")

end QueueProc

namespace Worker

open SimpleMonitor

/-- One iteration of `SimpleVideoWorker.run_worker` on a non-empty queue:
dequeue, process (outcome `success`), then record the outcome —
`mark_video_processed` on success (done inside `process_single_video`),
`mark_video_failed` on failure. -/
def worker_step (s : State) (success : Bool) : State :=
  match get_next_video s with
  | (none, s') => s'
  | (some v, s') =>
      if success then mark_video_processed s' v.path
      else mark_video_failed s' v.path

/-- One iteration of `SimpleVideoSystem.start_worker` (`simple_run.py`):
identical except that a failed video is recorded with
`mark_video_processed`. -/
def system_worker_step (s : State) (success : Bool) : State :=
  match get_next_video s with
  | (none, s') => s'
  | (some v, s') =>
      if success then mark_video_processed s' v.path
      else mark_video_processed s' v.path

/-- The external collaborators of `process_single_video`: the download
result (`None` on failure), the conversion result for a given local input,
the upload outcome for a local output and repo path, and
`_get_output_repo_path`. -/
structure Env where
  download_result : Option String
  convert_result : String → Option String
  upload_result : String → String → Bool
  output_repo_path : String → String

/-- What one `process_single_video` call did: its boolean result, which
stages were invoked, whether the `finally` cleanup ran, and which local
temp files it removed. -/
structure RunTrace where
  success : Bool
  convert_invoked : Bool
  upload_invoked : Bool
  cleanup_ran : Bool
  cleaned_files : List String
deriving DecidableEq, Repr

/-- `_cleanup_temp_files(*paths)`: remove every path that is not `None`. -/
def cleanup_temp_files (paths : List (Option String)) : List String :=
  paths.filterMap id

/-- `SimpleVideoWorker.process_single_video`: download → convert → upload →
mark processed, each failure returning `False` without running the later
stages, with the `finally` cleanup of `local_input_path`/`local_output_path`
on every exit path. -/
def process_single_video (env : Env) (s : State) (video_path : String) :
    RunTrace × State :=
  match env.download_result with
  | none =>
      (⟨false, false, false, true, cleanup_temp_files [none, none]⟩, s)
  | some local_input =>
      match env.convert_result local_input with
      | none =>
          (⟨false, true, false, true,
            cleanup_temp_files [some local_input, none]⟩, s)
      | some local_output =>
          if env.upload_result local_output (env.output_repo_path video_path) then
            (⟨true, true, true, true,
              cleanup_temp_files [some local_input, some local_output]⟩,
             mark_video_processed s video_path)
          else
            (⟨false, true, true, true,
              cleanup_temp_files [some local_input, some local_output]⟩, s)

end Worker


namespace Scenario

open MSMonitor

/-- Four folders enqueued in order with priorities [3, 1, 2, 1]:
`"A"` has 60 files (priority 3), `"B"` 1 file (priority 1), `"C"` 20 files
(priority 2), `"D"` 2 files (priority 1). -/
def c3_enqueues : List (String × FolderInfo × String) :=
  [("A", ⟨60, 1000, 0⟩, "t1"), ("B", ⟨1, 1000, 0⟩, "t2"),
   ("C", ⟨20, 1000, 0⟩, "t3"), ("D", ⟨2, 1000, 0⟩, "t4")]

/-- The queue after the four enqueues. -/
def c3_queue : List FolderItem := enqueue_all [] c3_enqueues

/-- Four successive dequeues. -/
def c3_d1 : Option String × List FolderItem := QueueProc.dequeue_once c3_queue "s1"

def c3_d2 : Option String × List FolderItem := QueueProc.dequeue_once c3_d1.2 "s2"

def c3_d3 : Option String × List FolderItem := QueueProc.dequeue_once c3_d2.2 "s3"

def c3_d4 : Option String × List FolderItem := QueueProc.dequeue_once c3_d3.2 "s4"

/-- The C4 catalog: three single-file items of sizes 10 MB, 20 MB and
5 GB (in bytes). -/
def c4_items : List FolderInfo :=
  [⟨1, 10 * 1024 ^ 2, 0⟩, ⟨1, 20 * 1024 ^ 2, 0⟩, ⟨1, 5 * 1024 ^ 3, 0⟩]

end Scenario

/-! ## Helper lemmas -/

namespace SimpleMonitor

theorem any_path_eq_iff (q : List VideoItem) (x : String) :
    q.any (fun item => item.path == x) = true ↔ x ∈ q.map (·.path) := by
  simp [List.any_eq_true, List.mem_map]

theorem countP_path_eq_count (q : List VideoItem) (x : String) :
    q.countP (fun item => item.path == x) = (q.map (·.path)).count x := by
  rw [List.count, List.countP_map]
  rfl

end SimpleMonitor

/-- C1: enqueueing an identity that is already in the processed set or
already in the live queue is a no-op leaving the state unchanged; two
successive enqueues of the same (unprocessed) identity leave exactly one
live-queue entry for it; and in the folder variant a check on a folder
already present in the queue leaves the monitor state unchanged. -/
theorem claim_C1_enqueue_idempotent :
    (∀ (s : SimpleMonitor.State) (v : SimpleMonitor.VideoInfo) (now : Int),
        v.path ∈ s.processed_videos →
        SimpleMonitor.add_video_to_queue s v now = s) ∧
    (∀ (s : SimpleMonitor.State) (v : SimpleMonitor.VideoInfo) (now : Int),
        v.path ∈ s.queuePaths →
        SimpleMonitor.add_video_to_queue s v now = s) ∧
    (∀ (s : SimpleMonitor.State) (v : SimpleMonitor.VideoInfo) (t₁ t₂ : Int),
        v.path ∉ s.processed_videos → s.queuePaths.Nodup →
        ((SimpleMonitor.add_video_to_queue
            (SimpleMonitor.add_video_to_queue s v t₁) v t₂).video_queue.countP
          (fun item => item.path == v.path)) = 1) ∧
    (∀ (st : MSMonitor.MState) (f : String) (c : MSMonitor.FolderCheck),
        st.processing_queue.any (fun item => item.folder == f) = true →
        MSMonitor.folder_check_step st f c = (st, false)) := by
  refine ⟨?_, ?_, ?_, ?_⟩
  · intro s v now h
    simp [SimpleMonitor.add_video_to_queue, h]
  · intro s v now h
    have hq : s.video_queue.any (fun item => item.path == v.path) = true :=
      (SimpleMonitor.any_path_eq_iff _ _).mpr h
    by_cases hp : v.path ∈ s.processed_videos <;>
      simp [SimpleMonitor.add_video_to_queue, hp, hq]
  · intro s v t₁ t₂ hproc hnodup
    by_cases hq : s.video_queue.any (fun item => item.path == v.path) = true
    · have h1 : SimpleMonitor.add_video_to_queue s v t₁ = s := by
        simp [SimpleMonitor.add_video_to_queue, hproc, hq]
      have h2 : SimpleMonitor.add_video_to_queue s v t₂ = s := by
        simp [SimpleMonitor.add_video_to_queue, hproc, hq]
      rw [h1, h2, SimpleMonitor.countP_path_eq_count]
      have hqp : s.video_queue.map (·.path) = s.queuePaths := rfl
      rw [hqp]
      have hmem : v.path ∈ s.queuePaths := (SimpleMonitor.any_path_eq_iff _ _).mp hq
      have hle := List.nodup_iff_count_le_one.mp hnodup v.path
      have hpos := List.count_pos_iff.mpr hmem
      omega
    · have hq' : s.video_queue.any (fun item => item.path == v.path) = false :=
        Bool.not_eq_true _ ▸ eq_false_of_ne_true hq
      have h1 : SimpleMonitor.add_video_to_queue s v t₁ =
          { s with video_queue :=
              s.video_queue ++ [⟨v.path, v.size, v.mtime, t₁, "pending", 1⟩] } := by
        simp [SimpleMonitor.add_video_to_queue, hproc, hq]
      have hq2 : (s.video_queue ++
          [(⟨v.path, v.size, v.mtime, t₁, "pending", 1⟩ :
            SimpleMonitor.VideoItem)]).any
            (fun item => item.path == v.path) = true := by
        simp [List.any_append]
      have h2 : SimpleMonitor.add_video_to_queue
          (SimpleMonitor.add_video_to_queue s v t₁) v t₂ =
          SimpleMonitor.add_video_to_queue s v t₁ := by
        rw [h1]
        simp only [SimpleMonitor.add_video_to_queue]
        rw [if_neg hproc, if_pos hq2]
      rw [h2, h1]
      have hzero : s.video_queue.countP (fun item => item.path == v.path) = 0 := by
        rw [List.countP_eq_zero]
        intro a ha
        have := List.any_eq_false.mp hq' a ha
        simpa using this
      simp [List.countP_append, hzero]
  · intro st f c h
    simp [MSMonitor.folder_check_step, h]

/-- Witness for C1 at concrete states. -/
theorem claim_C1_w :
    SimpleMonitor.add_video_to_queue
      ⟨["done.mp4"], [⟨"queued.mp4", 5, 0, 0, "pending", 1⟩]⟩
      ⟨"done.mp4", 5, 0⟩ 3 =
      ⟨["done.mp4"], [⟨"queued.mp4", 5, 0, 0, "pending", 1⟩]⟩ ∧
    SimpleMonitor.add_video_to_queue
      ⟨["done.mp4"], [⟨"queued.mp4", 5, 0, 0, "pending", 1⟩]⟩
      ⟨"queued.mp4", 7, 1⟩ 3 =
      ⟨["done.mp4"], [⟨"queued.mp4", 5, 0, 0, "pending", 1⟩]⟩ ∧
    ((SimpleMonitor.add_video_to_queue
        (SimpleMonitor.add_video_to_queue
          ⟨["done.mp4"], [⟨"queued.mp4", 5, 0, 0, "pending", 1⟩]⟩
          ⟨"new.mp4", 9, 2⟩ 1)
        ⟨"new.mp4", 9, 2⟩ 2).video_queue.countP
      (fun item => item.path ==
        (⟨"new.mp4", 9, 2⟩ : SimpleMonitor.VideoInfo).path)) = 1 ∧
    MSMonitor.folder_check_step
      ⟨⟨[], none⟩, [MSMonitor.to_queue_item "F" ⟨1, 1, 0⟩ "t"]⟩ "F"
      ⟨0, "h", 1, 1, 0⟩ =
      (⟨⟨[], none⟩, [MSMonitor.to_queue_item "F" ⟨1, 1, 0⟩ "t"]⟩, false) :=
  ⟨claim_C1_enqueue_idempotent.1 _ _ _ (by decide),
   claim_C1_enqueue_idempotent.2.1 _ _ _ (by decide),
   claim_C1_enqueue_idempotent.2.2.1 _ _ _ _ (by decide) (by decide),
   claim_C1_enqueue_idempotent.2.2.2 _ _ _ (by decide)⟩

/-- C2: every queue operation preserves the at-most-one-location invariant,
and marking an identity processed/failed puts it in the processed set and
removes every queue entry carrying it. -/
theorem claim_C2_invariant_preserved :
    ∀ (s : SimpleMonitor.State) (v : SimpleMonitor.VideoInfo) (now : Int)
      (path : String), SimpleMonitor.Inv s →
      SimpleMonitor.Inv (SimpleMonitor.add_video_to_queue s v now) ∧
      SimpleMonitor.Inv (SimpleMonitor.get_next_video s).2 ∧
      SimpleMonitor.Inv (SimpleMonitor.mark_video_processed s path) ∧
      SimpleMonitor.Inv (SimpleMonitor.mark_video_failed s path) ∧
      path ∈ (SimpleMonitor.mark_video_processed s path).processed_videos ∧
      path ∉ (SimpleMonitor.mark_video_processed s path).queuePaths ∧
      path ∈ (SimpleMonitor.mark_video_failed s path).processed_videos ∧
      path ∉ (SimpleMonitor.mark_video_failed s path).queuePaths := by
  intro s v now path hinv
  obtain ⟨hdisj, hnodup⟩ := hinv
  have hmark : SimpleMonitor.Inv (SimpleMonitor.mark_video_processed s path) := by
    constructor
    · intro p hp
      simp only [SimpleMonitor.mark_video_processed, SimpleMonitor.State.queuePaths,
        List.mem_map, List.mem_filter, bne_iff_ne] at hp
      obtain ⟨item, ⟨hitem, hne⟩, rfl⟩ := hp
      simp only [SimpleMonitor.mark_video_processed]
      rw [List.mem_insert_iff]
      push_neg
      exact ⟨hne, hdisj _ (List.mem_map_of_mem _ hitem)⟩
    · have hsub : (SimpleMonitor.mark_video_processed s path).queuePaths.Sublist
          s.queuePaths := by
        simp only [SimpleMonitor.mark_video_processed, SimpleMonitor.State.queuePaths]
        exact (List.filter_sublist _).map _
      exact hnodup.sublist hsub
  have hmem : path ∈ (SimpleMonitor.mark_video_processed s path).processed_videos := by
    simp only [SimpleMonitor.mark_video_processed]
    exact List.mem_insert_self _ _
  have hnotq : path ∉ (SimpleMonitor.mark_video_processed s path).queuePaths := by
    simp only [SimpleMonitor.mark_video_processed, SimpleMonitor.State.queuePaths,
      List.mem_map, List.mem_filter, bne_iff_ne]
    rintro ⟨item, ⟨_, hne⟩, rfl⟩
    exact hne rfl
  refine ⟨?_, ?_, hmark, hmark, hmem, hnotq, hmem, hnotq⟩
  · by_cases hp : v.path ∈ s.processed_videos
    · simpa [SimpleMonitor.add_video_to_queue, hp] using ⟨hdisj, hnodup⟩
    · by_cases hq : s.video_queue.any (fun item => item.path == v.path) = true
      · simpa [SimpleMonitor.add_video_to_queue, hp, hq] using ⟨hdisj, hnodup⟩
      · have hq' : v.path ∉ s.queuePaths := fun hmem' =>
          hq ((SimpleMonitor.any_path_eq_iff _ _).mpr hmem')
        have hqueue : (SimpleMonitor.add_video_to_queue s v now).video_queue =
            s.video_queue ++ [⟨v.path, v.size, v.mtime, now, "pending", 1⟩] := by
          simp [SimpleMonitor.add_video_to_queue, hp, hq]
        have hpaths : (SimpleMonitor.add_video_to_queue s v now).queuePaths =
            s.queuePaths ++ [v.path] := by
          simp [SimpleMonitor.State.queuePaths, hqueue]
        constructor
        · intro p hpmem
          rw [hpaths, List.mem_append] at hpmem
          have hproc : (SimpleMonitor.add_video_to_queue s v now).processed_videos =
              s.processed_videos := by
            simp [SimpleMonitor.add_video_to_queue, hp, hq]
          rw [hproc]
          rcases hpmem with hpmem | hpmem
          · exact hdisj _ hpmem
          · simp only [List.mem_singleton] at hpmem
            subst hpmem
            exact hp
        · rw [hpaths, List.nodup_append]
          refine ⟨hnodup, List.nodup_singleton _, ?_⟩
          intro a ha hb
          simp only [List.mem_singleton] at hb
          subst hb
          exact hq' ha
  · cases hq : s.video_queue with
    | nil =>
      have : (SimpleMonitor.get_next_video s).2 = s := by
        simp [SimpleMonitor.get_next_video, hq]
      rw [this]
      exact ⟨hdisj, hnodup⟩
    | cons w rest =>
      have h2 : (SimpleMonitor.get_next_video s).2 =
          { s with video_queue := rest } := by
        simp [SimpleMonitor.get_next_video, hq]
      rw [h2]
      have hpaths : s.queuePaths = w.path :: rest.map (·.path) := by
        simp [SimpleMonitor.State.queuePaths, hq]
      constructor
      · intro p hp
        refine hdisj p ?_
        rw [hpaths]
        simp only [SimpleMonitor.State.queuePaths] at hp
        exact List.mem_cons_of_mem _ hp
      · have := hnodup
        rw [hpaths] at this
        exact this.of_cons

/-- Witness for C2 at a concrete invariant-satisfying state. -/
theorem claim_C2_w :
    SimpleMonitor.Inv (SimpleMonitor.add_video_to_queue
      ⟨["done.mp4"], [⟨"a.mp4", 1, 0, 0, "pending", 1⟩]⟩ ⟨"b.mp4", 2, 0⟩ 5) ∧
    "a.mp4" ∈ (SimpleMonitor.mark_video_processed
      ⟨["done.mp4"], [⟨"a.mp4", 1, 0, 0, "pending", 1⟩]⟩ "a.mp4").processed_videos ∧
    "a.mp4" ∉ (SimpleMonitor.mark_video_processed
      ⟨["done.mp4"], [⟨"a.mp4", 1, 0, 0, "pending", 1⟩]⟩ "a.mp4").queuePaths :=
  ⟨(claim_C2_invariant_preserved _ ⟨"b.mp4", 2, 0⟩ 5 "a.mp4" (by decide)).1,
   (claim_C2_invariant_preserved _ ⟨"b.mp4", 2, 0⟩ 5 "a.mp4" (by decide)).2.2.2.2.1,
   (claim_C2_invariant_preserved _ ⟨"b.mp4", 2, 0⟩ 5 "a.mp4" (by decide)).2.2.2.2.2.1⟩

theorem filter_orderedInsert_pri (p : Nat) (a : MSMonitor.FolderItem)
    (l : List MSMonitor.FolderItem) :
    (l.orderedInsert MSMonitor.le_pri a).filter (fun it => it.priority == p)
      = if a.priority = p then
          a :: l.filter (fun it => it.priority == p)
        else l.filter (fun it => it.priority == p) := by
  induction l with
  | nil =>
    by_cases hap : a.priority = p <;>
      simp [List.orderedInsert, List.filter_cons, hap]
  | cons b l ih =>
    by_cases hab : MSMonitor.le_pri a b
    · rw [List.orderedInsert_of_le _ _ hab]
      by_cases hap : a.priority = p <;> simp [List.filter_cons, hap]
    · have hstep : (b :: l).orderedInsert MSMonitor.le_pri a =
          b :: l.orderedInsert MSMonitor.le_pri a := by
        simp [List.orderedInsert, hab]
      rw [hstep, List.filter_cons, ih]
      by_cases hap : a.priority = p
      · have hbp : ¬(b.priority = p) := by
          have hlt : ¬ a.priority ≤ b.priority := hab
          omega
        simp [hap, hbp, List.filter_cons]
      · by_cases hbp : b.priority = p <;> simp [hap, hbp, List.filter_cons]

theorem filter_insertionSort_pri (p : Nat) (l : List MSMonitor.FolderItem) :
    (l.insertionSort MSMonitor.le_pri).filter (fun it => it.priority == p)
      = l.filter (fun it => it.priority == p) := by
  induction l with
  | nil => rfl
  | cons a l ih =>
    rw [List.insertionSort, filter_orderedInsert_pri, ih, List.filter_cons]
    by_cases hap : a.priority = p <;> simp [hap]

theorem sorted_enqueue_all (items : List (String × MSMonitor.FolderInfo × String))
    (q₀ : List MSMonitor.FolderItem) (h : q₀.Sorted MSMonitor.le_pri) :
    (MSMonitor.enqueue_all q₀ items).Sorted MSMonitor.le_pri := by
  induction items generalizing q₀ with
  | nil => simpa [MSMonitor.enqueue_all] using h
  | cons it items ih =>
    simp only [MSMonitor.enqueue_all, List.foldl_cons]
    exact ih _ (List.sorted_insertionSort MSMonitor.le_pri _)

theorem filter_enqueue_all (p : Nat)
    (items : List (String × MSMonitor.FolderInfo × String))
    (q₀ : List MSMonitor.FolderItem) :
    (MSMonitor.enqueue_all q₀ items).filter (fun it => it.priority == p)
      = q₀.filter (fun it => it.priority == p)
        ++ (items.map (fun it => MSMonitor.to_queue_item it.1 it.2.1 it.2.2)).filter
            (fun it => it.priority == p) := by
  induction items generalizing q₀ with
  | nil => simp [MSMonitor.enqueue_all]
  | cons it items ih =>
    simp only [MSMonitor.enqueue_all, List.foldl_cons] at ih ⊢
    rw [ih, show MSMonitor.add_to_queue q₀ it.1 it.2.1 it.2.2 =
        ((q₀ ++ [MSMonitor.to_queue_item it.1 it.2.1 it.2.2]).insertionSort
          MSMonitor.le_pri) from rfl]
    rw [filter_insertionSort_pri, List.filter_append, List.map_cons, List.filter_cons]
    by_cases h : (MSMonitor.to_queue_item it.1 it.2.1 it.2.2).priority = p <;>
      simp [h, List.filter_cons]

/-- C3: after any sequence of enqueues the live queue is sorted by priority
ascending with insertion order preserved among equal priorities, and for
the [3, 1, 2, 1] scenario the four successive dequeues return the two
priority-1 folders in insertion order, then the priority-2 one, then the
priority-3 one. -/
theorem claim_C3_priority_order :
    (∀ items : List (String × MSMonitor.FolderInfo × String),
        (MSMonitor.enqueue_all [] items).Sorted MSMonitor.le_pri) ∧
    (∀ (items : List (String × MSMonitor.FolderInfo × String)) (p : Nat),
        (MSMonitor.enqueue_all [] items).filter (fun it => it.priority == p)
          = (items.map (fun it => MSMonitor.to_queue_item it.1 it.2.1 it.2.2)).filter
              (fun it => it.priority == p)) ∧
    Scenario.c3_queue.map (·.priority) = [1, 1, 2, 3] ∧
    Scenario.c3_d1.1 = some "B" ∧ Scenario.c3_d2.1 = some "D" ∧
    Scenario.c3_d3.1 = some "C" ∧ Scenario.c3_d4.1 = some "A" := by
  refine ⟨fun items => sorted_enqueue_all items [] List.sorted_nil, ?_, ?_, ?_, ?_, ?_, ?_⟩
  · intro items p
    simpa using filter_enqueue_all p items []
  all_goals decide

/-- C4 counterexample: with default thresholds the catalog
[10 MB, 20 MB, 5 GB] (single-file items) does *not* get priorities
[1, 1, 3] — the 5 GB item is within the small-size threshold
(`total_size/(1024**3) <= 5`), so it also gets priority 1. -/
theorem claim_C4_cex :
    ¬ (Scenario.c4_items.map MSMonitor.calculate_priority = [1, 1, 3]) := by
  decide

/-- C4 (amended): the enqueue-time priority is 1 when file count and total
size are within the small thresholds (≤ 10 files and ≤ 5 GiB), 2 when
within the medium thresholds (≤ 50 files and ≤ 20 GiB) but not the small
ones, and 3 otherwise; hence the catalog [10 MB, 20 MB, 5 GB] gets
priorities [1, 1, 1]. -/
theorem claim_C4_priority_thresholds :
    (∀ info : MSMonitor.FolderInfo,
        (MSMonitor.calculate_priority info = 1 ↔
          info.file_count ≤ 10 ∧ info.total_size ≤ 5 * 1024 ^ 3) ∧
        (MSMonitor.calculate_priority info = 2 ↔
          ¬(info.file_count ≤ 10 ∧ info.total_size ≤ 5 * 1024 ^ 3) ∧
          info.file_count ≤ 50 ∧ info.total_size ≤ 20 * 1024 ^ 3) ∧
        (MSMonitor.calculate_priority info = 3 ↔
          ¬(info.file_count ≤ 10 ∧ info.total_size ≤ 5 * 1024 ^ 3) ∧
          ¬(info.file_count ≤ 50 ∧ info.total_size ≤ 20 * 1024 ^ 3))) ∧
    Scenario.c4_items.map MSMonitor.calculate_priority = [1, 1, 1] := by
  constructor
  · intro info
    unfold MSMonitor.calculate_priority
    split_ifs with h1 h2 <;> simp_all
  · decide

theorem lookup_update_folder (m : List (String × MSMonitor.FolderRec))
    (k : String) (v : MSMonitor.FolderRec) :
    (MSMonitor.update_folder m k v).lookup k = some v := by
  induction m with
  | nil => simp [MSMonitor.update_folder, List.lookup]
  | cons kv m ih =>
    obtain ⟨k', v'⟩ := kv
    by_cases h : k' = k
    · subst h
      simp [MSMonitor.update_folder, List.lookup]
    · have hb : (k' == k) = false := beq_eq_false_iff_ne.mpr h
      have hb' : (k == k') = false := beq_eq_false_iff_ne.mpr (Ne.symm h)
      simp [MSMonitor.update_folder, List.lookup, hb, hb', ih]

theorem queued_run_checks (f : String) (cs : List MSMonitor.FolderCheck) :
    ∀ st : MSMonitor.MState,
      st.processing_queue.any (fun i => i.folder == f) = true →
      MSMonitor.run_checks st f cs = (st, 0) := by
  induction cs with
  | nil => intro st _; rfl
  | cons c cs ih =>
    intro st h
    have hstep : MSMonitor.folder_check_step st f c = (st, false) := by
      simp [MSMonitor.folder_check_step, h]
    simp [MSMonitor.run_checks, hstep, ih st h]

theorem any_folder_add_to_queue (q : List MSMonitor.FolderItem) (n : String)
    (info : MSMonitor.FolderInfo) (t : String) :
    (MSMonitor.add_to_queue q n info t).any (fun it => it.folder == n) = true := by
  rw [List.any_eq_true]
  refine ⟨MSMonitor.to_queue_item n info t, ?_, by simp [MSMonitor.to_queue_item]⟩
  unfold MSMonitor.add_to_queue
  rw [List.mem_insertionSort]
  simp

theorem changing_no_enqueue (f : String) (cs : List MSMonitor.FolderCheck) :
    ∀ st : MSMonitor.MState,
      st.processing_queue.any (fun i => i.folder == f) = false →
      MSMonitor.always_changing (MSMonitor.recorded_hash st f) cs = true →
      (MSMonitor.run_checks st f cs).2 = 0 ∧
      (MSMonitor.run_checks st f cs).1.processing_queue = st.processing_queue := by
  induction cs with
  | nil => intro st _ _; exact ⟨rfl, rfl⟩
  | cons c cs ih =>
    intro st hq hc
    simp only [MSMonitor.always_changing, Bool.and_eq_true, bne_iff_ne] at hc
    obtain ⟨hne, hrest⟩ := hc
    rw [MSMonitor.recorded_hash] at hne
    have hstep : MSMonitor.folder_check_step st f c =
        (⟨⟨MSMonitor.update_folder st.last_state.folders f
            ⟨c.hash, c.time, c.file_count, c.total_size, c.last_modified⟩,
          st.last_state.last_check⟩, st.processing_queue⟩, false) := by
      simp [MSMonitor.folder_check_step, hq, hne]
    have hq' : (⟨⟨MSMonitor.update_folder st.last_state.folders f
            ⟨c.hash, c.time, c.file_count, c.total_size, c.last_modified⟩,
          st.last_state.last_check⟩, st.processing_queue⟩ :
          MSMonitor.MState).processing_queue.any (fun i => i.folder == f)
        = false := hq
    have hrec : MSMonitor.recorded_hash
        (⟨⟨MSMonitor.update_folder st.last_state.folders f
            ⟨c.hash, c.time, c.file_count, c.total_size, c.last_modified⟩,
          st.last_state.last_check⟩, st.processing_queue⟩ : MSMonitor.MState) f
        = c.hash := by
      simp [MSMonitor.recorded_hash, lookup_update_folder]
    have hrest' := ih _ hq' (by rw [hrec]; exact hrest)
    simp only [MSMonitor.run_checks, hstep]
    simpa using hrest'

theorem stable_enqueue_once (f hsh : String) (t₀ : Int)
    (cs : List MSMonitor.FolderCheck) :
    ∀ (st : MSMonitor.MState) (r : MSMonitor.FolderRec),
      st.processing_queue.any (fun i => i.folder == f) = false →
      st.last_state.folders.lookup f = some r →
      r.hash = hsh → r.last_check_time = t₀ →
      (∀ c ∈ cs, c.hash = hsh) → (∀ c ∈ cs, 0 < c.file_count) →
      (MSMonitor.run_checks st f cs).2 =
        if ∃ c ∈ cs, MSMonitor.min_folder_stable_time ≤ c.time - t₀ then 1
        else 0 := by
  induction cs with
  | nil => intro st r _ _ _ _ _ _; simp [MSMonitor.run_checks]
  | cons c cs ih =>
    intro st r hq hl hh ht hhash hcount
    have hch : c.hash = hsh := hhash c (by simp)
    have hlast : ((st.last_state.folders.lookup f).map
        MSMonitor.FolderRec.hash).getD "" = hsh := by
      simp [hl, hh]
    have htt : ((st.last_state.folders.lookup f).map
        MSMonitor.FolderRec.last_check_time).getD 0 = t₀ := by
      simp [hl, ht]
    by_cases htime : MSMonitor.min_folder_stable_time ≤ c.time - t₀
    · have hstep : MSMonitor.folder_check_step st f c =
          (⟨st.last_state, MSMonitor.add_to_queue st.processing_queue f
              ⟨c.file_count, c.total_size, c.last_modified⟩ (toString c.time)⟩,
           true) := by
        simp [MSMonitor.folder_check_step, hq, hlast, htt, hch, htime,
          hcount c (by simp)]
      have hq2 : (MSMonitor.add_to_queue st.processing_queue f
          ⟨c.file_count, c.total_size, c.last_modified⟩
          (toString c.time)).any (fun i => i.folder == f) = true :=
        any_folder_add_to_queue _ _ _ _
      have hrest := queued_run_checks f cs
        ⟨st.last_state, MSMonitor.add_to_queue st.processing_queue f
          ⟨c.file_count, c.total_size, c.last_modified⟩ (toString c.time)⟩ hq2
      have hex : ∃ c' ∈ c :: cs,
          MSMonitor.min_folder_stable_time ≤ c'.time - t₀ :=
        ⟨c, by simp, htime⟩
      simp [MSMonitor.run_checks, hstep, hrest, hex, htime]
    · have hstep : MSMonitor.folder_check_step st f c = (st, false) := by
        simp [MSMonitor.folder_check_step, hq, hlast, htt, hch, htime]
      have hrest := ih st r hq hl hh ht
        (fun c' hc' => hhash c' (List.mem_cons_of_mem _ hc'))
        (fun c' hc' => hcount c' (List.mem_cons_of_mem _ hc'))
      by_cases hex : ∃ c' ∈ cs, MSMonitor.min_folder_stable_time ≤ c'.time - t₀
      · simp [MSMonitor.run_checks, hstep, hrest, hex, htime]
      · have hex2 : ¬ ∃ c' ∈ c :: cs,
            MSMonitor.min_folder_stable_time ≤ c'.time - t₀ := by
          rintro ⟨c', hc', hle⟩
          rcases List.mem_cons.mp hc' with rfl | hc'
          · exact htime hle
          · exact hex ⟨c', hc', hle⟩
        simp [MSMonitor.run_checks, hstep, hrest, hex, hex2, htime]

/-- C5: under the stability gate, a folder whose content hash differs from
the recorded hash at every check is never enqueued (and the queue is left
unchanged); a non-empty folder observed with a constant hash is enqueued
exactly once as soon as some later check falls ≥ 600 s (the default dwell
time) after the first, and never again. -/
theorem claim_C5_stability_gate :
    (∀ (st : MSMonitor.MState) (f : String) (cs : List MSMonitor.FolderCheck),
        st.processing_queue.any (fun i => i.folder == f) = false →
        MSMonitor.always_changing (MSMonitor.recorded_hash st f) cs = true →
        (MSMonitor.run_checks st f cs).2 = 0 ∧
        (MSMonitor.run_checks st f cs).1.processing_queue =
          st.processing_queue) ∧
    (∀ (st : MSMonitor.MState) (f hsh : String) (c₀ : MSMonitor.FolderCheck)
        (rest : List MSMonitor.FolderCheck),
        st.processing_queue.any (fun i => i.folder == f) = false →
        st.last_state.folders.lookup f = none →
        hsh ≠ "" →
        (∀ c ∈ c₀ :: rest, c.hash = hsh) →
        (∀ c ∈ c₀ :: rest, 0 < c.file_count) →
        (∃ c ∈ rest, MSMonitor.min_folder_stable_time ≤ c.time - c₀.time) →
        (MSMonitor.run_checks st f (c₀ :: rest)).2 = 1) := by
  constructor
  · intro st f cs hq hc
    exact changing_no_enqueue f cs st hq hc
  · intro st f hsh c₀ rest hq hl hne hhash hcount hex
    have hch : c₀.hash = hsh := hhash c₀ (by simp)
    have hlast : ((st.last_state.folders.lookup f).map
        MSMonitor.FolderRec.hash).getD "" = "" := by simp [hl]
    have hne0 : c₀.hash ≠ ((st.last_state.folders.lookup f).map
        MSMonitor.FolderRec.hash).getD "" := by
      rw [hlast, hch]
      exact hne
    have hstep : MSMonitor.folder_check_step st f c₀ =
        (⟨⟨MSMonitor.update_folder st.last_state.folders f
            ⟨c₀.hash, c₀.time, c₀.file_count, c₀.total_size, c₀.last_modified⟩,
          st.last_state.last_check⟩, st.processing_queue⟩, false) := by
      simp [MSMonitor.folder_check_step, hq, hne0]
    have hrest := stable_enqueue_once f hsh c₀.time rest
      ⟨⟨MSMonitor.update_folder st.last_state.folders f
          ⟨c₀.hash, c₀.time, c₀.file_count, c₀.total_size, c₀.last_modified⟩,
        st.last_state.last_check⟩, st.processing_queue⟩
      ⟨c₀.hash, c₀.time, c₀.file_count, c₀.total_size, c₀.last_modified⟩
      hq (lookup_update_folder _ _ _) hch rfl
      (fun c hc => hhash c (List.mem_cons_of_mem _ hc))
      (fun c hc => hcount c (List.mem_cons_of_mem _ hc))
    simp only [MSMonitor.run_checks, hstep]
    simp [hrest, hex]

/-- Witness for C5 on concrete traces: a folder whose hash changes at both
checks is never enqueued; a folder stable for 700 s (≥ 600 s) is enqueued
exactly once. -/
theorem claim_C5_w :
    ((MSMonitor.run_checks ⟨⟨[], none⟩, []⟩ "S"
        [⟨0, "h1", 1, 10, 0⟩, ⟨700, "h2", 1, 10, 0⟩]).2 = 0 ∧
      (MSMonitor.run_checks ⟨⟨[], none⟩, []⟩ "S"
        [⟨0, "h1", 1, 10, 0⟩, ⟨700, "h2", 1, 10, 0⟩]).1.processing_queue = []) ∧
    (MSMonitor.run_checks ⟨⟨[], none⟩, []⟩ "S"
        [⟨0, "h", 2, 10, 0⟩, ⟨700, "h", 2, 10, 0⟩]).2 = 1 :=
  ⟨claim_C5_stability_gate.1 ⟨⟨[], none⟩, []⟩ "S"
      [⟨0, "h1", 1, 10, 0⟩, ⟨700, "h2", 1, 10, 0⟩] (by decide) (by decide),
   claim_C5_stability_gate.2 ⟨⟨[], none⟩, []⟩ "S" "h" ⟨0, "h", 2, 10, 0⟩
      [⟨700, "h", 2, 10, 0⟩] (by decide) (by decide) (by decide) (by decide)
      (by decide) ⟨⟨700, "h", 2, 10, 0⟩, by decide, by decide⟩⟩

/-- C6: whether the per-item pipeline succeeds or fails, after the worker
processes a dequeued item its identity is in the processed set and absent
from the live queue, and a later discovery-cycle enqueue of that identity
is a no-op (so the item is never automatically retried).  This holds both
for `SimpleVideoWorker.run_worker` (`worker_step`) and for
`SimpleVideoSystem.start_worker` (`system_worker_step`). -/
theorem claim_C6_failed_item_not_retried :
    ∀ (s : SimpleMonitor.State) (v : SimpleMonitor.VideoItem)
      (rest : List SimpleMonitor.VideoItem) (success : Bool),
      s.video_queue = v :: rest →
      (v.path ∈ (Worker.worker_step s success).processed_videos ∧
       v.path ∉ (Worker.worker_step s success).queuePaths ∧
       (∀ (info : SimpleMonitor.VideoInfo) (now : Int), info.path = v.path →
          SimpleMonitor.add_video_to_queue (Worker.worker_step s success)
            info now = Worker.worker_step s success)) ∧
      (v.path ∈ (Worker.system_worker_step s success).processed_videos ∧
       v.path ∉ (Worker.system_worker_step s success).queuePaths) := by
  intro s v rest success hq
  have hw : Worker.worker_step s success =
      SimpleMonitor.mark_video_processed ⟨s.processed_videos, rest⟩ v.path := by
    cases success <;>
      simp [Worker.worker_step, SimpleMonitor.get_next_video, hq,
        SimpleMonitor.mark_video_failed, SimpleMonitor.mark_video_processed]
  have hw2 : Worker.system_worker_step s success =
      SimpleMonitor.mark_video_processed ⟨s.processed_videos, rest⟩ v.path := by
    cases success <;>
      simp [Worker.system_worker_step, SimpleMonitor.get_next_video, hq,
        SimpleMonitor.mark_video_processed]
  have hmem : v.path ∈ (SimpleMonitor.mark_video_processed
      ⟨s.processed_videos, rest⟩ v.path).processed_videos :=
    List.mem_insert_self _ _
  have hnq : v.path ∉ (SimpleMonitor.mark_video_processed
      ⟨s.processed_videos, rest⟩ v.path).queuePaths := by
    simp only [SimpleMonitor.mark_video_processed, SimpleMonitor.State.queuePaths,
      List.mem_map, List.mem_filter, bne_iff_ne]
    rintro ⟨item, ⟨_, hne⟩, heq⟩
    exact hne heq
  refine ⟨⟨hw ▸ hmem, hw ▸ hnq, ?_⟩, hw2 ▸ hmem, hw2 ▸ hnq⟩
  intro info now hinfo
  rw [hw]
  have hin : info.path ∈ (SimpleMonitor.mark_video_processed
      ⟨s.processed_videos, rest⟩ v.path).processed_videos := hinfo ▸ hmem
  simp [SimpleMonitor.add_video_to_queue, hin]

/-- Witness for C6 at a concrete one-element queue, for both outcomes. -/
theorem claim_C6_w :
    ("x.mp4" ∈ (Worker.worker_step ⟨[], [⟨"x.mp4", 1, 0, 0, "pending", 1⟩]⟩
        false).processed_videos ∧
     "x.mp4" ∉ (Worker.worker_step ⟨[], [⟨"x.mp4", 1, 0, 0, "pending", 1⟩]⟩
        false).queuePaths) ∧
    "x.mp4" ∈ (Worker.worker_step ⟨[], [⟨"x.mp4", 1, 0, 0, "pending", 1⟩]⟩
        true).processed_videos :=
  ⟨⟨(claim_C6_failed_item_not_retried ⟨[], [⟨"x.mp4", 1, 0, 0, "pending", 1⟩]⟩
        ⟨"x.mp4", 1, 0, 0, "pending", 1⟩ [] false rfl).1.1,
    (claim_C6_failed_item_not_retried ⟨[], [⟨"x.mp4", 1, 0, 0, "pending", 1⟩]⟩
        ⟨"x.mp4", 1, 0, 0, "pending", 1⟩ [] false rfl).1.2.1⟩,
   (claim_C6_failed_item_not_retried ⟨[], [⟨"x.mp4", 1, 0, 0, "pending", 1⟩]⟩
        ⟨"x.mp4", 1, 0, 0, "pending", 1⟩ [] true rfl).1.1⟩

/-- C7: if the fetch (download) stage fails, the item fails without the
convert or upload stage being invoked and with the monitor state untouched,
and the `finally` cleanup runs on every exit path of the per-item
pipeline. -/
theorem claim_C7_fetch_failure_isolated :
    (∀ (env : Worker.Env) (s : SimpleMonitor.State) (p : String),
        env.download_result = none →
        Worker.process_single_video env s p = (⟨false, false, false, true, []⟩, s)) ∧
    (∀ (env : Worker.Env) (s : SimpleMonitor.State) (p : String),
        (Worker.process_single_video env s p).1.cleanup_ran = true) := by
  constructor
  · intro env s p h
    simp [Worker.process_single_video, h, Worker.cleanup_temp_files]
  · intro env s p
    cases hd : env.download_result with
    | none => simp [Worker.process_single_video, hd]
    | some inp =>
      cases hc : env.convert_result inp with
      | none => simp [Worker.process_single_video, hd, hc]
      | some outp =>
        by_cases hu : env.upload_result outp (env.output_repo_path p) = true <;>
          simp [Worker.process_single_video, hd, hc, hu]

/-- Witness for C7 with a concrete failing-download environment. -/
theorem claim_C7_w :
    Worker.process_single_video
      ⟨none, fun _ => none, fun _ _ => false, fun x => x⟩ ⟨[], []⟩ "v.mp4" =
      (⟨false, false, false, true, []⟩, ⟨[], []⟩) :=
  claim_C7_fetch_failure_isolated.1
    ⟨none, fun _ => none, fun _ _ => false, fun x => x⟩ ⟨[], []⟩ "v.mp4" rfl

theorem decode_encode_video_item (i : SimpleMonitor.VideoItem) :
    Persist.decode_video_item (Persist.encode_video_item i) = some i := by
  cases i
  rfl

theorem decode_list_encode (q : List SimpleMonitor.VideoItem) :
    Persist.decode_list Persist.decode_video_item
      (q.map Persist.encode_video_item) = some q := by
  induction q with
  | nil => rfl
  | cons a q ih => simp [Persist.decode_list, decode_encode_video_item, ih]

theorem decode_list_str (l : List String) :
    Persist.decode_list Persist.as_str (l.map Persist.Json.str) = some l := by
  induction l with
  | nil => rfl
  | cons a l ih => simp [Persist.decode_list, Persist.as_str, ih]

/-- C8: saving the live queue and the monitor state to their JSON documents
and reloading them yields the same sequence of queue entries and the same
processed-identity set, for every state. -/
theorem claim_C8_round_trip :
    ∀ (s : SimpleMonitor.State) (ts : String),
      Persist.load_queue_doc (Persist.save_queue s) = some s.video_queue ∧
      Persist.load_state_doc (Persist.save_state s ts) =
        some s.processed_videos := by
  intro s ts
  constructor
  · simp [Persist.save_queue, Persist.load_queue_doc, decode_list_encode]
  · have hbeq : ("processed_videos" == "processed_videos") = true := by decide
    simp [Persist.save_state, Persist.load_state_doc, List.lookup, hbeq,
      decode_list_str]

/-- C9: a missing or unreadable state/queue/progress file loads as the
empty default — cold start instead of an exception, for
`QueueProcessor.load_queue`, `load_progress` and
`ModelScopeMonitor.load_state`. -/
theorem claim_C9_corrupt_state_cold_start :
    QueueProc.load_queue Persist.FileRead.missing = [] ∧
    QueueProc.load_queue Persist.FileRead.unreadable = [] ∧
    Utils.load_progress Persist.FileRead.missing = [] ∧
    Utils.load_progress Persist.FileRead.unreadable = [] ∧
    MSMonitor.load_state Persist.FileRead.missing = ⟨[], none⟩ ∧
    MSMonitor.load_state Persist.FileRead.unreadable = ⟨[], none⟩ :=
  ⟨rfl, rfl, rfl, rfl, rfl, rfl⟩

/-- C10: `process_folder` marks the folder completed and returns true
exactly when nothing raised, disk space sufficed, videos were found, at
least one batch was run and at least 80% of the batches succeeded
(`4·batches ≤ 5·successes`); in every other case it marks the folder
failed and returns false. -/
theorem claim_C10_process_folder_outcome :
    ∀ (env : QueueProc.FolderEnv) (folder_name : String),
      (QueueProc.process_folder env folder_name = (true, "completed") ↔
        env.raises = false ∧ env.space_ok = true ∧ env.folder_videos ≠ [] ∧
        0 < (QueueProc.folder_batches folder_name env.folder_videos).length ∧
        4 * (QueueProc.folder_batches folder_name env.folder_videos).length ≤
          5 * ((QueueProc.folder_batches folder_name env.folder_videos).filter
                (fun b => env.batch_ok b.1 b.2)).length) ∧
      (QueueProc.process_folder env folder_name = (true, "completed") ∨
       QueueProc.process_folder env folder_name = (false, "failed")) := by
  intro env fn
  simp only [QueueProc.process_folder]
  constructor
  · split_ifs with h1 h2 h3 h4 <;> simp_all
  · split_ifs <;> simp
